import Mathlib

/-!
Verification of the multi-agent change-orchestration pipeline
(`.github/scripts/backend_agent.py`, `backend_agent_fix.py`,
`code_reviewer.py`, `frontend_agent.py`).

Python strings are embedded as `List Char`; every `py*` helper below models
the corresponding Python `str` primitive used by the scripts.
-/

/-- A Python string, embedded as its list of characters. -/
abbrev PyStr := List Char

/-- Models Python `s.startswith(pat)`: `leadsWith pat s` is true iff `pat`
is an initial segment of `s`. -/
def leadsWith : PyStr → PyStr → Bool
  | [], _ => true
  | _ :: _, [] => false
  | a :: as, b :: bs => a == b && leadsWith as bs

/-- Models Python `pat in s` (contiguous-substring test). -/
def containsSub (pat : PyStr) : PyStr → Bool
  | [] => pat.isEmpty
  | s@(_ :: rest) => leadsWith pat s || containsSub pat rest

/-- Helper for the split functions: put `a` at the front of the first token. -/
def consTok (a : Char) : List PyStr → List PyStr
  | [] => [[a]]
  | t :: ts => (a :: t) :: ts

/-- Models Python `s.split(sep)` for a three-character separator
(the scripts only split on the 3-char separators "```" and " b/",
besides the single-char "\n"): leftmost, non-overlapping matches. -/
def splitOnTok3 (sep : PyStr) : PyStr → List PyStr
  | a :: b :: c :: rest =>
    if a :: b :: c :: ([] : PyStr) = sep then [] :: splitOnTok3 sep rest
    else consTok a (splitOnTok3 sep (b :: c :: rest))
  | l => [l]

/-- Models Python `s.split(ch)` for a single-character separator. -/
def splitOnChar (x : Char) : PyStr → List PyStr
  | [] => [[]]
  | c :: rest => if c = x then [] :: splitOnChar x rest else consTok c (splitOnChar x rest)

/-- Models Python `"\n".join(lines)`. -/
def joinLines : List PyStr → PyStr
  | [] => []
  | [l] => l
  | l :: l2 :: ls => l ++ '\n' :: joinLines (l2 :: ls)

/-- Strip characters satisfying `q` from both ends of a string; models the
two-sided behaviour of Python `str.strip`. -/
def stripBoth (q : Char → Bool) (l : PyStr) : PyStr :=
  ((l.dropWhile q).reverse.dropWhile q).reverse

/-- The default whitespace set of Python `str.strip()` (ASCII part). -/
def isPySpace (c : Char) : Bool :=
  c == ' ' || c == '\t' || c == '\n' || c == '\r' || c == '\x0b' || c == '\x0c'

/-- Models Python `s.strip()` with no argument. -/
def pyStrip (l : PyStr) : PyStr := stripBoth isPySpace l

/-! ## `backend_agent.sanitize_branch_name` -/

/-- Models Python `text.lower()` (character-wise; only the letters relevant
to the slug alphabet matter, all other characters are replaced by `-` in the
next step). -/
def pyLower (l : PyStr) : PyStr := l.map Char.toLower

/-- The character class of the slug: what the regex `[^a-z0-9-]` keeps. -/
def allowedChar (c : Char) : Prop :=
  ('a' ≤ c ∧ c ≤ 'z') ∨ ('0' ≤ c ∧ c ≤ '9') ∨ c = '-'

instance (c : Char) : Decidable (allowedChar c) := by
  unfold allowedChar; infer_instance

/-- Models `re.sub(r'[^a-z0-9-]', '-', text)`. -/
def replaceDisallowed (l : PyStr) : PyStr :=
  l.map (fun c => if allowedChar c then c else '-')

/-- Models `re.sub(r'-+', '-', text)`: collapse every run of `-` to one. -/
def collapseDashes : PyStr → PyStr
  | [] => []
  | [c] => [c]
  | a :: b :: rest =>
    if a = '-' ∧ b = '-' then collapseDashes (b :: rest)
    else a :: collapseDashes (b :: rest)

/-- Models `text.strip('-')`. -/
def stripDash (l : PyStr) : PyStr := stripBoth (fun c => c == '-') l

/-- `backend_agent.py`, `sanitize_branch_name` (lines 73–78):
lower-case, replace `[^a-z0-9-]` by `-`, collapse `-+`, strip `-`,
then truncate to 30 characters. -/
def sanitize_branch_name (text : PyStr) : PyStr :=
  (stripDash (collapseDashes (replaceDisallowed (pyLower text)))).take 30

/-! ### Shape lemmas for the slug pipeline -/

/-- Adjacent characters of a slug never form a double hyphen. -/
def dashRel (a b : Char) : Prop := ¬(a = '-' ∧ b = '-')

lemma dropWhile_sfx (q : Char → Bool) : ∀ l : PyStr, l.dropWhile q <:+ l
  | [] => by simp
  | c :: l => by
    cases hq : q c
    · simp [List.dropWhile, hq]
    · simpa [List.dropWhile, hq] using (dropWhile_sfx q l).trans (List.suffix_cons c l)

lemma head?_dropWhile_not (q : Char → Bool) :
    ∀ (l : PyStr) (a : Char), (l.dropWhile q).head? = some a → q a = false
  | [], a => by simp [List.dropWhile]
  | c :: l, a => by
    cases hq : q c
    · simp only [List.dropWhile, hq]
      intro h
      cases h
      exact hq
    · simp only [List.dropWhile, hq]
      exact head?_dropWhile_not q l a

lemma stripBoth_pfx (q : Char → Bool) (l : PyStr) : stripBoth q l <+: l.dropWhile q := by
  obtain ⟨t, ht⟩ := dropWhile_sfx q (l.dropWhile q).reverse
  exact ⟨t.reverse, by rw [stripBoth, ← List.reverse_append, ht, List.reverse_reverse]⟩

lemma head?_of_pfx {l₁ l₂ : PyStr} (h : l₁ <+: l₂) {a : Char} (ha : l₁.head? = some a) :
    l₂.head? = some a := by
  obtain ⟨t, rfl⟩ := h
  cases l₁
  · simp at ha
  · simpa using ha

lemma head?_stripBoth (q : Char → Bool) (l : PyStr) (a : Char)
    (h : (stripBoth q l).head? = some a) : q a = false :=
  head?_dropWhile_not q l a (head?_of_pfx (stripBoth_pfx q l) h)

lemma getLast?_stripBoth (q : Char → Bool) (l : PyStr) (a : Char)
    (h : (stripBoth q l).getLast? = some a) : q a = false := by
  rw [← List.head?_reverse, stripBoth, List.reverse_reverse] at h
  exact head?_dropWhile_not q _ a h

lemma mem_collapseDashes : ∀ (l : PyStr) (c : Char), c ∈ collapseDashes l → c ∈ l
  | [], c => by simp [collapseDashes]
  | [a], c => by simp [collapseDashes]
  | a :: b :: rest, c => by
    by_cases h : a = '-' ∧ b = '-'
    · rw [collapseDashes, if_pos h]
      intro hc
      exact List.mem_cons_of_mem a (mem_collapseDashes (b :: rest) c hc)
    · rw [collapseDashes, if_neg h]
      intro hc
      rcases List.mem_cons.mp hc with h1 | h2
      · exact h1 ▸ List.mem_cons_self a _
      · exact List.mem_cons_of_mem a (mem_collapseDashes (b :: rest) c h2)

lemma head?_collapseDashes (b : Char) (rest : PyStr) (hb : b ≠ '-') :
    (collapseDashes (b :: rest)).head? = some b := by
  cases rest with
  | nil => simp [collapseDashes]
  | cons c r =>
    rw [collapseDashes]
    rw [if_neg (fun hc => hb hc.1)]
    simp

lemma chain'_collapseDashes : ∀ l : PyStr, List.Chain' dashRel (collapseDashes l)
  | [] => by simp [collapseDashes]
  | [a] => by simp [collapseDashes]
  | a :: b :: rest => by
    by_cases h : a = '-' ∧ b = '-'
    · rw [collapseDashes, if_pos h]
      exact chain'_collapseDashes (b :: rest)
    · rw [collapseDashes, if_neg h]
      refine (chain'_collapseDashes (b :: rest)).cons' ?_
      intro y hy
      by_cases ha : a = '-'
      · have hb : b ≠ '-' := fun hb => h ⟨ha, hb⟩
        rw [head?_collapseDashes b rest hb] at hy
        simp only [Option.mem_def, Option.some.injEq] at hy
        exact fun hc => hb (hy ▸ hc.2)
      · exact fun hc => ha hc.1

lemma chain'_flip_of_chain' {R : Char → Char → Prop} (hsymm : ∀ a b, R a b → R b a)
    {l : PyStr} (h : List.Chain' R l) : List.Chain' R l.reverse := by
  rw [List.chain'_reverse]
  exact h.imp (fun a b hab => hsymm a b hab)

lemma dashRel_symm (a b : Char) : dashRel a b → dashRel b a :=
  fun h hc => h ⟨hc.2, hc.1⟩

lemma chain'_stripBoth (q : Char → Bool) {l : PyStr} (h : List.Chain' dashRel l) :
    List.Chain' dashRel (stripBoth q l) := by
  have h1 : List.Chain' dashRel (l.dropWhile q) := h.suffix (dropWhile_sfx q l)
  have h2 : List.Chain' dashRel (l.dropWhile q).reverse :=
    chain'_flip_of_chain' dashRel_symm h1
  have h3 : List.Chain' dashRel ((l.dropWhile q).reverse.dropWhile q) :=
    h2.suffix (dropWhile_sfx q _)
  exact chain'_flip_of_chain' dashRel_symm h3

lemma head?_take {l : PyStr} {n : Nat} {a : Char} (hn : 0 < n)
    (h : (l.take n).head? = some a) : l.head? = some a := by
  cases l with
  | nil => simp at h
  | cons c t =>
    cases n with
    | zero => exact absurd hn (by simp)
    | succ m => simpa using h

/-- Claim C3 (amended): every branch slug produced by `sanitize_branch_name`
contains only lowercase letters, digits and hyphens, has no leading hyphen,
no two consecutive hyphens, and length at most 30; and whenever the stripped
slug already fits the 30-character cap (so the final truncation is a no-op),
it has no trailing hyphen either.  (An unconditional no-trailing-hyphen
guarantee is false: truncation happens after stripping and can cut directly
after a hyphen, see the counterexample.) -/
theorem sanitize_branch_name_shape (s : PyStr) :
    (∀ c ∈ sanitize_branch_name s, allowedChar c)
    ∧ (∀ a, (sanitize_branch_name s).head? = some a → a ≠ '-')
    ∧ List.Chain' dashRel (sanitize_branch_name s)
    ∧ (sanitize_branch_name s).length ≤ 30
    ∧ ((stripDash (collapseDashes (replaceDisallowed (pyLower s)))).length ≤ 30 →
        ∀ a, (sanitize_branch_name s).getLast? = some a → a ≠ '-') := by
  refine ⟨?_, ?_, ?_, ?_, ?_⟩
  · intro c hc
    have h1 : c ∈ stripDash (collapseDashes (replaceDisallowed (pyLower s))) :=
      List.take_subset 30 _ hc
    have h2 : c ∈ (collapseDashes (replaceDisallowed (pyLower s))).dropWhile
        (fun c => c == '-') := (stripBoth_pfx _ _).subset h1
    have h3 : c ∈ collapseDashes (replaceDisallowed (pyLower s)) :=
      (dropWhile_sfx _ _).subset h2
    have h4 : c ∈ replaceDisallowed (pyLower s) := mem_collapseDashes _ c h3
    obtain ⟨d, _, hd⟩ := List.mem_map.mp h4
    by_cases had : allowedChar d
    · rw [if_pos had] at hd
      exact hd ▸ had
    · rw [if_neg had] at hd
      exact hd ▸ Or.inr (Or.inr rfl)
  · intro a ha
    have h1 := head?_take (by norm_num) ha
    have h2 := head?_stripBoth (fun c => c == '-') _ a h1
    simpa using h2
  · exact (chain'_stripBoth _ (chain'_collapseDashes _)).take 30
  · rw [sanitize_branch_name, List.length_take]
    exact min_le_left _ _
  · intro hlen a ha
    rw [sanitize_branch_name, List.take_of_length_le hlen] at ha
    have h2 := getLast?_stripBoth (fun c => c == '-') _ a ha
    simpa using h2

/-- Claim C3 counterexample: the input consisting of 29 `a`s, a hyphen and a
`b` yields a 30-character slug ending in a hyphen — the length cap, applied
after hyphen stripping, can cut directly after a hyphen, so the original
claim's unconditional "no trailing hyphen" is false. -/
theorem sanitize_branch_name_trailing_hyphen_cex :
    (sanitize_branch_name ("aaaaaaaaaaaaaaaaaaaaaaaaaaaaa-b").toList).getLast? = some '-' := by
  decide

/-! ## `code_reviewer.py`: diff filtering -/

/-- `REVIEWABLE_EXTENSIONS` (code_reviewer.py lines 30–34). -/
def reviewableExtensions : List PyStr :=
  [".py".toList, ".js".toList, ".jsx".toList, ".ts".toList, ".tsx".toList,
   ".sql".toList, ".yml".toList, ".yaml".toList, ".dockerfile".toList,
   ".json".toList, ".env.example".toList, ".sh".toList]

/-- `SKIP_PATHS` (code_reviewer.py lines 36–40). -/
def skipPaths : List PyStr :=
  ["package-lock.json".toList, "yarn.lock".toList, "poetry.lock".toList,
   "requirements.txt".toList, "alembic/versions/".toList]

/-- `MAX_DIFF_CHARS` (code_reviewer.py line 42). -/
def maxDiffChars : Nat := 80000

/-- The truncation marker appended by `filter_diff` (line 90). -/
def truncMarker : PyStr :=
  "\n\n[DIFF TRUNCATED — too large. Review remaining files manually.]".toList

/-- The `diff --git` file-header marker. -/
def hdrTok : PyStr := "diff --git".toList

/-- Models `pathlib.Path(filename).suffix`: the extension (with dot) of the
final path component, empty unless the last dot sits strictly inside the
name (CPython: nonempty iff `0 < i < len(name) - 1` for `i = name.rfind('.')`;
trailing slashes of the path are dropped first, as pathlib normalizes them). -/
def pathSfx (f : PyStr) : PyStr :=
  let f2 := (f.reverse.dropWhile (fun c => c == '/')).reverse
  let name := (splitOnChar '/' f2).getLastD []
  match (name.reverse.findIdx? (fun c => c == '.')) with
  | none => []
  | some ri =>
    let i := name.length - 1 - ri
    if 0 < i ∧ i < name.length - 1 then name.drop i else []

/-- The skip-list test of `filter_diff` (lines 69–72): some `SKIP_PATHS`
entry occurs as a substring of the `diff --git` header line. -/
def matchesSkipPath (line : PyStr) : Bool :=
  skipPaths.any (fun p => containsSub p line)

/-- The whole header test of `filter_diff` (lines 66–81): skip the file when
a skip-path matches, or when the part after the first " b/" has an extension
(lower-cased `Path.suffix`) that is nonempty and not in the reviewable set. -/
def shouldSkipHeader (line : PyStr) : Bool :=
  if matchesSkipPath line then true
  else
    match (splitOnTok3 (" b/".toList) line).get? 1 with
    | some filename =>
      let ext := (pathSfx filename).map Char.toLower
      !(reviewableExtensions.contains ext) && !ext.isEmpty
    | none => false


/-- Skip-state update performed at each line of the `filter_diff` loop: a
`diff --git` header recomputes the state, any other line leaves it. -/
def nextSkip (skip : Bool) (l : PyStr) : Bool :=
  if leadsWith hdrTok l then shouldSkipHeader l else skip

/-- The per-line loop of `filter_diff` (lines 61–83): a line is kept iff the
skip state holding for it (after the header update) is "keep". -/
def filterLines : Bool → List PyStr → List PyStr
  | _, [] => []
  | skip, l :: ls =>
    if nextSkip skip l then filterLines (nextSkip skip l) ls
    else l :: filterLines (nextSkip skip l) ls

/-- `code_reviewer.py`, `filter_diff` (lines 58–92): split into lines, drop
the blocks of skip-listed / non-reviewable files, re-join, and truncate to
`MAX_DIFF_CHARS` appending the visible truncation marker. -/
def filter_diff (diff : PyStr) : PyStr :=
  let filtered := joinLines (filterLines false (splitOnChar '\n' diff))
  if maxDiffChars < filtered.length then filtered.take maxDiffChars ++ truncMarker
  else filtered

/-! ### Declarative characterization: governing headers -/

/-- Governing-header update: a `diff --git` line becomes the governing header
of itself and of every following line up to the next header. -/
def nextGov (gov : Option PyStr) (l : PyStr) : Option PyStr :=
  if leadsWith hdrTok l then some l else gov

/-- Pair every diff line with its governing file header: the most recent
`diff --git` line at or before it (`none` for preamble lines). -/
def annotateGov : Option PyStr → List PyStr → List (PyStr × Option PyStr)
  | _, [] => []
  | gov, l :: ls => (l, nextGov gov l) :: annotateGov (nextGov gov l) ls

/-- A line is kept iff it has no governing header (preamble) or its governing
header passes the skip test. -/
def keepGov : Option PyStr → Bool
  | none => true
  | some h => !(shouldSkipHeader h)

lemma nextSkip_keepGov (gov : Option PyStr) (l : PyStr) :
    nextSkip (!(keepGov gov)) l = !(keepGov (nextGov gov l)) := by
  by_cases hl : leadsWith hdrTok l = true
  · simp [nextSkip, nextGov, keepGov, hl]
  · have hl' : leadsWith hdrTok l = false := eq_false_of_ne_true hl
    simp [nextSkip, nextGov, hl']

lemma filterLines_eq_annotateGov :
    ∀ (ls : List PyStr) (gov : Option PyStr),
      filterLines (!(keepGov gov)) ls
        = ((annotateGov gov ls).filter (fun p => keepGov p.2)).map Prod.fst
  | [], gov => by simp [filterLines, annotateGov]
  | l :: ls, gov => by
    rw [filterLines, annotateGov, nextSkip_keepGov gov l]
    have hrec := filterLines_eq_annotateGov ls (nextGov gov l)
    cases hk : keepGov (nextGov gov l) with
    | false =>
      rw [hk] at hrec
      rw [List.filter_cons_of_neg (by simp [hk])]
      simpa [hk] using hrec
    | true =>
      rw [hk] at hrec
      rw [List.filter_cons_of_pos (by simp [hk])]
      simp only [hk, Bool.not_true, Bool.false_eq_true, if_false, List.map_cons]
      simpa using hrec

/-- Claim C6: `filter_diff` keeps exactly the lines whose governing
`diff --git` header (the most recent header at or before the line) passes the
skip test — in particular every line governed by a header matching the
skip-list is removed, wholly, and lines of kept files survive in order — and
whenever the filtered diff exceeds the `MAX_DIFF_CHARS` ceiling the returned
diff is the truncation of the filtered text ending with the visible
truncation marker. -/
theorem filter_diff_skiplist_and_truncation (diff : PyStr) :
    (filterLines false (splitOnChar '\n' diff)
        = ((annotateGov none (splitOnChar '\n' diff)).filter
            (fun p => keepGov p.2)).map Prod.fst)
    ∧ (∀ p ∈ annotateGov none (splitOnChar '\n' diff), ∀ h, p.2 = some h →
        matchesSkipPath h = true → keepGov p.2 = false)
    ∧ (filter_diff diff
        = if maxDiffChars < (joinLines (filterLines false (splitOnChar '\n' diff))).length
          then (joinLines (filterLines false (splitOnChar '\n' diff))).take maxDiffChars
              ++ truncMarker
          else joinLines (filterLines false (splitOnChar '\n' diff)))
    ∧ (if maxDiffChars < (joinLines (filterLines false (splitOnChar '\n' diff))).length
       then ∃ pre, filter_diff diff = pre ++ truncMarker
       else filter_diff diff = joinLines (filterLines false (splitOnChar '\n' diff))) := by
  refine ⟨?_, ?_, rfl, ?_⟩
  · simpa [keepGov] using filterLines_eq_annotateGov (splitOnChar '\n' diff) none
  · intro p _ h hh hmatch
    rw [hh]
    simp [keepGov, shouldSkipHeader, hmatch]
  · by_cases hlen :
      maxDiffChars < (joinLines (filterLines false (splitOnChar '\n' diff))).length
    · rw [if_pos hlen]
      exact ⟨_, by rw [filter_diff, if_pos hlen]⟩
    · rw [if_neg hlen, filter_diff, if_neg hlen]

/-! ## `code_reviewer.py`: review verdict and `main` -/

/-- Severity counts of a review (`stats` object of the review contract). -/
structure Stats where
  critical : Nat
  warning : Nat
  info : Nat
deriving DecidableEq

/-- Modelled from the spec: the verdict rule applied by the review service.
The file `reviewer_prompt.txt`, which fixes this rule for the service, is
loaded by `code_reviewer.load_prompt` but is not under `src/`; per the spec,
only `CRITICAL` findings block, so a review with `stats.critical == 0` gets
verdict `APPROVE` and any review with `stats.critical >= 1` gets
`REQUEST_CHANGES`, regardless of warning/info counts. -/
def reviewVerdict (s : Stats) : PyStr :=
  if s.critical = 0 then "APPROVE".toList else "REQUEST_CHANGES".toList

/-- Claim C2: the verdict is a function of the critical count alone —
`APPROVE` exactly when `stats.critical == 0`, `REQUEST_CHANGES` exactly when
`stats.critical >= 1`, independent of the warning and info counts. -/
theorem review_verdict_by_critical_only (c w i w2 i2 : Nat) :
    (reviewVerdict ⟨c, w, i⟩ = "APPROVE".toList ↔ c = 0)
    ∧ (reviewVerdict ⟨c, w, i⟩ = "REQUEST_CHANGES".toList ↔ 1 ≤ c)
    ∧ reviewVerdict ⟨c, w, i⟩ = reviewVerdict ⟨c, w2, i2⟩ := by
  by_cases hc : c = 0
  · subst hc
    refine ⟨by simp [reviewVerdict], ?_, by simp [reviewVerdict]⟩
    simp only [reviewVerdict, if_pos rfl]
    constructor
    · intro h
      exact absurd h (by decide)
    · intro h
      exact absurd h (by decide)
  · have h1 : 1 ≤ c := Nat.one_le_iff_ne_zero.mpr hc
    refine ⟨?_, ?_, by simp [reviewVerdict]⟩
    · simp only [reviewVerdict, if_neg hc]
      constructor
      · intro h
        exact absurd h.symm (by decide)
      · intro h
        exact absurd h hc
    · simp [reviewVerdict, hc, h1]

/-- Result of running a Python script: normal interpreter exit with a status
code, or an uncaught exception escaping to the interpreter (which then exits
with a traceback and a nonzero status). -/
inductive PyRunResult where
  | exited (code : Nat)
  | raised (msg : PyStr)
deriving DecidableEq

/-- The structured review object returned by the review service
(`call_claude` in `code_reviewer.py`): verdict string plus severity counts. -/
structure ReviewOut where
  verdict : PyStr
  stats : Stats
deriving DecidableEq

/-- Environment of one `code_reviewer.main` run: the raw diff of the pull
request, the review the service would return if called, the pull-request
author and the reviewer-bot identities, and whether the platform merge /
branch-delete calls would raise. -/
structure ReviewerEnv where
  rawDiff : PyStr
  review : ReviewOut
  prAuthor : PyStr
  botUser : PyStr
  mergeRaises : Bool
  deleteRaises : Bool
deriving DecidableEq

/-- Observable outcome of one `code_reviewer.main` run. -/
structure ReviewerOutcome where
  serviceCalled : Bool
  autoApproveCommentPosted : Bool
  reviewPosted : Bool
  mergeAttempted : Bool
  branchDeleteAttempted : Bool
  manualMergeNote : Bool
  result : PyRunResult
deriving DecidableEq

/-- Module-level names of `code_reviewer.py` that are bound before the
`if __name__ == "__main__": main()` statement (lines 308–309) runs: the defs
at lines 47–250 plus `main` itself.  `auto_merge` is defined at line 312,
after the entry-point call, so it is absent. -/
def reviewerNamesBeforeEntry : List PyStr :=
  ["get_diff".toList, "filter_diff".toList, "load_prompt".toList,
   "call_claude".toList, "format_pr_comment".toList, "post_review".toList,
   "dismiss_previous_reviews".toList, "main".toList]

/-- Whether the name `auto_merge` is bound when `main` reaches line 304
(`auto_merge(pr)`) in a script run.  It is not: the def at line 312 executes
only after the module-level `main()` call has returned. -/
def autoMergeBound : Bool :=
  reviewerNamesBeforeEntry.contains ("auto_merge".toList)

/-- `code_reviewer.py`, `auto_merge` (lines 312–336), as the intent reads:
squash-merge, then delete the branch (delete failures only warn), any merge
failure caught and reported as "needs manual merge". -/
def auto_merge (env : ReviewerEnv) : ReviewerOutcome → ReviewerOutcome :=
  fun o =>
    if env.mergeRaises then
      { o with mergeAttempted := true, manualMergeNote := true }
    else
      { o with mergeAttempted := true, branchDeleteAttempted := true }

/-- `code_reviewer.py`, `main` (lines 255–305) executed as a script: fetch
and filter the diff; an empty (after `strip()`) filtered diff short-circuits
to an automatic approval comment and a normal exit; otherwise the review
service is called, the review is posted, `REQUEST_CHANGES` exits 1, and the
`APPROVE` branch calls `auto_merge(pr)` — a name that is unbound at that
point of a script run, so the call raises `NameError` and `main` terminates
with an uncaught exception. -/
def reviewerMain (env : ReviewerEnv) : ReviewerOutcome :=
  let diff := filter_diff env.rawDiff
  if (pyStrip diff).isEmpty then
    { serviceCalled := false, autoApproveCommentPosted := true,
      reviewPosted := false, mergeAttempted := false,
      branchDeleteAttempted := false, manualMergeNote := false,
      result := .exited 0 }
  else
    let base : ReviewerOutcome :=
      { serviceCalled := true, autoApproveCommentPosted := false,
        reviewPosted := true, mergeAttempted := false,
        branchDeleteAttempted := false, manualMergeNote := false,
        result := .exited 0 }
    if env.review.verdict = "REQUEST_CHANGES".toList then
      { base with result := .exited 1 }
    else
      if autoMergeBound then
        { auto_merge env base with result := .exited 0 }
      else
        { base with
            result := .raised ("NameError: name auto_merge is not defined".toList) }

/-- Claim C7: whenever the filtered diff is empty, the reviewer run posts the
automatic approval comment, makes no call to the review service, and exits
normally with status 0. -/
theorem empty_filtered_diff_short_circuit (env : ReviewerEnv)
    (h : filter_diff env.rawDiff = []) :
    (reviewerMain env).serviceCalled = false
    ∧ (reviewerMain env).autoApproveCommentPosted = true
    ∧ (reviewerMain env).result = .exited 0 := by
  simp [reviewerMain, h, pyStrip, stripBoth, List.dropWhile]

/-- Witness for C7: on the empty raw diff, the filtered diff is empty and the
short-circuit fires. -/
theorem empty_filtered_diff_short_circuit_witness :
    (reviewerMain ⟨[], ⟨"APPROVE".toList, ⟨0, 0, 0⟩⟩, "backend-bot".toList,
        "reviewer-bot".toList, false, false⟩).serviceCalled = false
    ∧ (reviewerMain ⟨[], ⟨"APPROVE".toList, ⟨0, 0, 0⟩⟩, "backend-bot".toList,
        "reviewer-bot".toList, false, false⟩).autoApproveCommentPosted = true
    ∧ (reviewerMain ⟨[], ⟨"APPROVE".toList, ⟨0, 0, 0⟩⟩, "backend-bot".toList,
        "reviewer-bot".toList, false, false⟩).result = .exited 0 :=
  empty_filtered_diff_short_circuit _ (by decide)

/-- A concrete reviewer run reaching the `APPROVE` branch: one reviewable
file in the diff, a review with zero critical findings. -/
def approveRunEnv : ReviewerEnv :=
  { rawDiff := "diff --git a/app.py b/app.py\n+x".toList,
    review := ⟨"APPROVE".toList, ⟨0, 1, 2⟩⟩,
    prAuthor := "backend-bot".toList,
    botUser := "reviewer-bot".toList,
    mergeRaises := false, deleteRaises := false }

/-- Claim C4 (code bug): in a script run whose verdict is `APPROVE`, `main`
reaches `auto_merge(pr)` (line 304) before the `def auto_merge` at line 312
has executed — the module calls `main()` at line 309 — so instead of
attempting the squash-merge and exiting 0, the run raises `NameError` and
terminates with an uncaught exception. -/
theorem reviewer_approve_name_error :
    (reviewerMain approveRunEnv).mergeAttempted = false
    ∧ (reviewerMain approveRunEnv).result
        = .raised ("NameError: name auto_merge is not defined".toList)
    ∧ (reviewerMain approveRunEnv).result ≠ .exited 0 := by
  decide

/-! ## `backend_agent_fix.py`: the fix-attempt counter -/

/-- A commit of the checked-out history: hash, full message, and the branch
the commit was originally made on (git itself does not scope
`git log --grep` by this; the field exists to express claim C10). -/
structure Commit where
  sha : PyStr
  message : PyStr
  sourceBranch : PyStr
deriving DecidableEq

/-- The fix-marker pattern of `check_fix_attempt_count` (line 93). -/
def fixMarker : PyStr := "fix: address code review".toList

/-- `MAX_FIX_ATTEMPTS` (backend_agent_fix.py line 28). -/
def maxFixAttempts : Nat := 3

/-- First line of a commit message — what `git log --oneline` displays. -/
def firstLine (m : PyStr) : PyStr := m.takeWhile (fun c => !(c == '\n'))

/-- One `git log --oneline` output line: abbreviated hash, a space, and the
commit subject. -/
def onelineOf (c : Commit) : PyStr := c.sha ++ ' ' :: firstLine c.message

/-- Models the stdout of `git log --oneline --grep=<pattern>` run in the
checkout: one line per commit *reachable in the current history* whose
message contains the pattern (the pattern contains no regex metacharacters,
so `--grep` is a substring match), with no scoping to any branch. -/
def gitLogGrep (pattern : PyStr) (history : List Commit) : PyStr :=
  joinLines ((history.filter (fun c => containsSub pattern c.message)).map onelineOf)

/-- `backend_agent_fix.py`, `check_fix_attempt_count` (lines 90–96):
`len(result.stdout.strip().split("\n")) if result.stdout.strip() else 0`. -/
def check_fix_attempt_count (history : List Commit) : Nat :=
  let out := pyStrip (gitLogGrep fixMarker history)
  if out.isEmpty then 0 else (splitOnChar '\n' out).length

/-- Sanity conditions making a commit render as a clean `--oneline` row:
nonempty hash of non-whitespace characters, and a nonempty subject line not
ending in whitespace.  Every real git commit satisfies this. -/
def goodCommit (c : Commit) : Prop :=
  c.sha ≠ []
  ∧ (∀ ch ∈ c.sha, isPySpace ch = false)
  ∧ firstLine c.message ≠ []
  ∧ (firstLine c.message).getLast?.all (fun a => !(isPySpace a)) = true

instance (c : Commit) : Decidable (goodCommit c) := by
  unfold goodCommit; infer_instance

/-! ### Round-trip lemmas for the oneline counting -/

lemma dropWhile_eq_self_of_head (q : Char → Bool) (s : PyStr)
    (h : ∀ a, s.head? = some a → q a = false) : s.dropWhile q = s := by
  cases s with
  | nil => rfl
  | cons a t =>
    have := h a rfl
    simp [List.dropWhile, this]

lemma pyStrip_eq_self (s : PyStr)
    (ha : ∀ a, s.head? = some a → isPySpace a = false)
    (hb : ∀ b, s.getLast? = some b → isPySpace b = false) :
    pyStrip s = s := by
  unfold pyStrip stripBoth
  rw [dropWhile_eq_self_of_head _ s ha]
  rw [dropWhile_eq_self_of_head _ s.reverse
    (fun a h => hb a (by rwa [List.head?_reverse] at h))]
  exact List.reverse_reverse s

lemma joinLines_ne_nil (l : PyStr) (ls : List PyStr) (h : l ≠ []) :
    joinLines (l :: ls) ≠ [] := by
  cases ls with
  | nil => simpa [joinLines] using h
  | cons l2 ls =>
    cases l with
    | nil => exact absurd rfl h
    | cons a t => simp [joinLines]

lemma head?_joinLines (l : PyStr) (ls : List PyStr) (h : l ≠ []) :
    (joinLines (l :: ls)).head? = l.head? := by
  cases ls with
  | nil => rfl
  | cons l2 ls =>
    cases l with
    | nil => exact absurd rfl h
    | cons a t => simp [joinLines]

lemma getLast?_cons_ne {α : Type} (a : α) (t : List α) (h : t ≠ []) :
    (a :: t).getLast? = t.getLast? := by
  rw [← List.head?_reverse, ← List.head?_reverse (l := t)]
  rw [List.reverse_cons]
  cases ht : t.reverse with
  | nil => exact absurd (List.reverse_eq_nil_iff.mp ht) h
  | cons b r => simp

lemma getLast?_append_right (x y : PyStr) (h : y ≠ []) :
    (x ++ y).getLast? = y.getLast? := by
  rw [List.getLast?_append]
  obtain ⟨b, hb⟩ : ∃ b, y.getLast? = some b := by
    cases y with
    | nil => exact absurd rfl h
    | cons a t => exact ⟨_, List.getLast?_eq_getLast _ (by simp)⟩
  rw [hb]
  rfl

lemma getLast?_joinLines :
    ∀ (ls : List PyStr) (last : PyStr), (∀ x ∈ ls, x ≠ []) →
      ls.getLast? = some last → (joinLines ls).getLast? = last.getLast?
  | [], last => by simp
  | [l], last => by
    intro _ hl
    simp only [List.getLast?_singleton, Option.some.injEq] at hl
    subst hl
    rfl
  | l :: l2 :: ls, last => by
    intro h hl
    have h2 : (l2 :: ls).getLast? = some last := by
      rwa [getLast?_cons_ne l (l2 :: ls) (by simp)] at hl
    rw [joinLines, getLast?_append_right _ _ (by simp)]
    rw [getLast?_cons_ne _ _ (joinLines_ne_nil l2 ls (h l2 (by simp)))]
    exact getLast?_joinLines (l2 :: ls) last (fun x hx => h x (by simp [hx])) h2

lemma splitOnChar_no_sep (x : Char) :
    ∀ l : PyStr, x ∉ l → splitOnChar x l = [l]
  | [] => by intro _; rfl
  | c :: rest => by
    intro h
    have hc : ¬ c = x := fun hc => h (hc ▸ List.mem_cons_self c rest)
    rw [splitOnChar, if_neg hc,
      splitOnChar_no_sep x rest (fun hx => h (List.mem_cons_of_mem c hx))]
    rfl

lemma splitOnChar_append_sep (x : Char) :
    ∀ (l t : PyStr), x ∉ l → splitOnChar x (l ++ x :: t) = l :: splitOnChar x t
  | [], t => by
    intro _
    simp [splitOnChar]
  | c :: l, t => by
    intro h
    have hc : ¬ c = x := fun hc => h (hc ▸ List.mem_cons_self c l)
    rw [List.cons_append, splitOnChar, if_neg hc,
      splitOnChar_append_sep x l t (fun hx => h (List.mem_cons_of_mem c hx))]
    rfl

lemma splitOnChar_joinLines :
    ∀ ls : List PyStr, (∀ x ∈ ls, '\n' ∉ x) → ls ≠ [] →
      splitOnChar '\n' (joinLines ls) = ls
  | [] => by
    intro _ h
    exact absurd rfl h
  | [l] => by
    intro h _
    exact splitOnChar_no_sep '\n' l (h l (by simp))
  | l :: l2 :: ls => by
    intro h _
    rw [joinLines, splitOnChar_append_sep '\n' l _ (h l (by simp))]
    rw [splitOnChar_joinLines (l2 :: ls) (fun x hx => h x (List.mem_cons_of_mem l hx))
      (by simp)]

lemma onelineOf_ne_nil (c : Commit) : onelineOf c ≠ [] := by
  simp [onelineOf]

lemma newline_not_mem_onelineOf (c : Commit) (h : ∀ ch ∈ c.sha, isPySpace ch = false) :
    '\n' ∉ onelineOf c := by
  intro hmem
  rw [onelineOf] at hmem
  rcases List.mem_append.mp hmem with h1 | h2
  · exact absurd (h '\n' h1) (by decide)
  · rcases List.mem_cons.mp h2 with h3 | h4
    · exact absurd h3 (by decide)
    · have := List.mem_takeWhile_imp h4
      simp at this

lemma head?_onelineOf (c : Commit) (hgood : goodCommit c) :
    ∀ a, (onelineOf c).head? = some a → isPySpace a = false := by
  intro a ha
  obtain ⟨hs, hsp, _, _⟩ := hgood
  rw [onelineOf] at ha
  cases hsha : c.sha with
  | nil => exact absurd hsha hs
  | cons b t =>
    rw [hsha] at ha
    simp only [List.cons_append, List.head?_cons, Option.some.injEq] at ha
    exact ha ▸ hsp b (by rw [hsha]; exact List.mem_cons_self b t)

lemma getLast?_onelineOf (c : Commit) (hgood : goodCommit c) :
    ∀ b, (onelineOf c).getLast? = some b → isPySpace b = false := by
  intro b hb
  obtain ⟨_, _, hf, hl⟩ := hgood
  rw [onelineOf, getLast?_append_right _ _ (by simp), getLast?_cons_ne _ _ hf] at hb
  rw [hb] at hl
  simpa using hl

/-- The fix-attempt counter equals the number of commits in the whole
reachable history whose message contains the marker substring. -/
lemma check_fix_attempt_count_eq (h : List Commit) (hwf : ∀ c ∈ h, goodCommit c) :
    check_fix_attempt_count h
      = (h.filter (fun c => containsSub fixMarker c.message)).length := by
  rw [check_fix_attempt_count, gitLogGrep]
  cases hcase : h.filter (fun c => containsSub fixMarker c.message) with
  | nil => simp [joinLines, pyStrip, stripBoth, List.dropWhile]
  | cons m ms =>
    have hgood : ∀ c ∈ m :: ms, goodCommit c := by
      intro c hc
      exact hwf c (List.mem_of_mem_filter (hcase ▸ hc))
    have hm : goodCommit m := hgood m (by simp)
    have hlines_ne : ∀ x ∈ (m :: ms).map onelineOf, x ≠ [] := by
      intro x hx
      obtain ⟨c, _, rfl⟩ := List.mem_map.mp hx
      exact onelineOf_ne_nil c
    have hlines_nl : ∀ x ∈ (m :: ms).map onelineOf, '\n' ∉ x := by
      intro x hx
      obtain ⟨c, hc, rfl⟩ := List.mem_map.mp hx
      exact newline_not_mem_onelineOf c (hgood c hc).2.1
    have hjoin_ne : joinLines ((m :: ms).map onelineOf) ≠ [] := by
      rw [List.map_cons]
      exact joinLines_ne_nil _ _ (onelineOf_ne_nil m)
    have hlast : ∃ lc, lc ∈ m :: ms ∧
        ((m :: ms).map onelineOf).getLast? = some (onelineOf lc) := by
      refine ⟨(m :: ms).getLast (by simp), List.getLast_mem _, ?_⟩
      rw [List.getLast?_map, List.getLast?_eq_getLast _ (by simp)]
      rfl
    obtain ⟨lc, hlc_mem, hlc⟩ := hlast
    have hstrip : pyStrip (joinLines ((m :: ms).map onelineOf))
        = joinLines ((m :: ms).map onelineOf) := by
      apply pyStrip_eq_self
      · intro a ha
        rw [List.map_cons, head?_joinLines _ _ (onelineOf_ne_nil m)] at ha
        exact head?_onelineOf m hm a ha
      · intro b hb
        rw [getLast?_joinLines ((m :: ms).map onelineOf) (onelineOf lc)
          hlines_ne hlc] at hb
        exact getLast?_onelineOf lc (hgood lc hlc_mem) b hb
    rw [hstrip]
    rw [if_neg (by simpa using hjoin_ne)]
    rw [splitOnChar_joinLines _ hlines_nl (by simp)]
    simp

/-- Claim C10: the fix-attempt counter counts every commit of the current
checkout's reachable history whose message contains the marker substring:
it equals the plain filter-count over the whole history, it is invariant
under relabeling which branch each commit came from, and appending one
marker commit that originated on any other branch increments it by one. -/
theorem fix_attempt_count_whole_history (h : List Commit) (b : PyStr) (c : Commit)
    (hwf : ∀ x ∈ h, goodCommit x) (hc : goodCommit c)
    (hmark : containsSub fixMarker c.message = true) :
    check_fix_attempt_count h
      = (h.filter (fun x => containsSub fixMarker x.message)).length
    ∧ check_fix_attempt_count (h.map (fun x => { x with sourceBranch := b }))
        = check_fix_attempt_count h
    ∧ check_fix_attempt_count (h ++ [c]) = check_fix_attempt_count h + 1 := by
  refine ⟨check_fix_attempt_count_eq h hwf, ?_, ?_⟩
  · have hwf2 : ∀ x ∈ h.map (fun x => { x with sourceBranch := b }), goodCommit x := by
      intro x hx
      obtain ⟨y, hy, rfl⟩ := List.mem_map.mp hx
      exact hwf y hy
    rw [check_fix_attempt_count_eq _ hwf2, check_fix_attempt_count_eq h hwf]
    rw [List.filter_map]
    rw [List.length_map]
    congr 1
  · have hwf3 : ∀ x ∈ h ++ [c], goodCommit x := by
      intro x hx
      rcases List.mem_append.mp hx with h1 | h2
      · exact hwf x h1
      · rw [List.mem_singleton.mp h2]
        exact hc
    rw [check_fix_attempt_count_eq _ hwf3, check_fix_attempt_count_eq h hwf]
    rw [List.filter_append]
    simp [hmark]

/-- Witness for C10 at a concrete history: two commits on the pull request's
own branch (one marker, one not) plus the counted foreign marker commit. -/
theorem fix_attempt_count_whole_history_witness :
    check_fix_attempt_count
        [⟨"a1b2".toList, "fix: address code review findings".toList,
            "feature/backend/7-x".toList⟩,
         ⟨"c3d4".toList, "feat: add endpoint".toList, "feature/backend/7-x".toList⟩]
      = 1
    ∧ check_fix_attempt_count
        ([⟨"a1b2".toList, "fix: address code review findings".toList,
            "feature/backend/7-x".toList⟩,
          ⟨"c3d4".toList, "feat: add endpoint".toList, "feature/backend/7-x".toList⟩]
          ++ [⟨"e5f6".toList, "fix: address code review findings".toList,
                "feature/backend/9-other".toList⟩])
      = 2 := by
  have h := fix_attempt_count_whole_history
    [⟨"a1b2".toList, "fix: address code review findings".toList,
        "feature/backend/7-x".toList⟩,
     ⟨"c3d4".toList, "feat: add endpoint".toList, "feature/backend/7-x".toList⟩]
    ("develop".toList)
    ⟨"e5f6".toList, "fix: address code review findings".toList,
        "feature/backend/9-other".toList⟩
    (by decide) (by decide) (by decide)
  refine ⟨?_, ?_⟩
  · rw [h.1]
    decide
  · rw [h.2.2, h.1]
    decide

/-! ## `backend_agent_fix.py`: `main` -/

/-- One file entry of the structured fix object (`files:[{path,content}]`). -/
structure FixFile where
  path : PyStr
  content : PyStr
deriving DecidableEq

/-- The structured fix object parsed from the generation response. -/
structure FixResult where
  files : List FixFile
  commit_message : Option PyStr
  pr_comment : Option PyStr
deriving DecidableEq

/-- The escalation message posted when the retry bound is reached
(backend_agent_fix.py lines 236–239). -/
def escalationMsg : PyStr :=
  "Maximum fix attempts (3) reached. Please review the remaining issues manually.".toList

/-- Default commit message of `apply_fixes` (line 182). -/
def defaultFixCommitMsg : PyStr := "fix: address code review findings".toList

/-- Environment of one fixer run: the commit history of the checked-out PR
branch, the aggregated findings, the generation-service response (or the
`json.JSONDecodeError` its parsing raises), whether any git command in
`apply_fixes` raises `CalledProcessError`, whether the working tree has a net
change after writing the fix files, and the metadata of the would-be commit. -/
structure FixerRun where
  history : List Commit
  prBranch : PyStr
  findings : List PyStr
  claudeResp : Except PyStr FixResult
  gitExc : Option PyStr
  treeChanged : Bool
  newSha : PyStr

/-- Observable outcome of one `backend_agent_fix.main` run. -/
structure FixerOutcome where
  claudeCalled : Bool
  commitsMade : Nat
  errorComment : Option PyStr
  fixCommentPosted : Bool
  result : PyRunResult
  newHistory : List Commit
deriving DecidableEq

/-- `backend_agent_fix.py`, `main` (lines 226–292): the retry-bound check
runs before anything else and, at the bound, posts the escalation comment and
exits 0 (line 242); empty findings return normally with no generation call
(lines 250–252); otherwise the generation call, file writing and git
commands run inside the try-block whose handlers post an error comment and
exit 1.  `gitExc` models a `CalledProcessError` from any git command of
`apply_fixes`; the tree-changed test is modelled on the non-raising path. -/
def fixerMain (r : FixerRun) : FixerOutcome :=
  if maxFixAttempts ≤ check_fix_attempt_count r.history then
    { claudeCalled := false, commitsMade := 0, errorComment := some escalationMsg,
      fixCommentPosted := false, result := .exited 0, newHistory := r.history }
  else if r.findings.isEmpty then
    { claudeCalled := false, commitsMade := 0, errorComment := none,
      fixCommentPosted := false, result := .exited 0, newHistory := r.history }
  else
    match r.claudeResp with
    | .error e =>
      { claudeCalled := true, commitsMade := 0,
        errorComment := some ("Failed to parse the generation response as JSON: ".toList ++ e),
        fixCommentPosted := false, result := .exited 1, newHistory := r.history }
    | .ok res =>
      if res.files.isEmpty then
        { claudeCalled := true, commitsMade := 0, errorComment := none,
          fixCommentPosted := false, result := .exited 0, newHistory := r.history }
      else
        match r.gitExc with
        | some e =>
          { claudeCalled := true, commitsMade := 0,
            errorComment := some ("Git operation failed: ".toList ++ e),
            fixCommentPosted := false, result := .exited 1, newHistory := r.history }
        | none =>
          if r.treeChanged then
            { claudeCalled := true, commitsMade := 1, errorComment := none,
              fixCommentPosted := true, result := .exited 0,
              newHistory := r.history ++
                [⟨r.newSha, res.commit_message.getD defaultFixCommitMsg, r.prBranch⟩] }
          else
            { claudeCalled := true, commitsMade := 0, errorComment := none,
              fixCommentPosted := false, result := .exited 0, newHistory := r.history }

/-- Claim C1: once at least `MAX_FIX_ATTEMPTS` (3) commits of the reachable
history carry the fix-marker, a fixer invocation makes no generation call,
creates no commit, posts the escalation comment asking for manual review,
and exits with status 0. -/
theorem fixer_escalates_at_max_attempts (r : FixerRun)
    (hwf : ∀ c ∈ r.history, goodCommit c)
    (hcount : 3 ≤ (r.history.filter (fun c => containsSub fixMarker c.message)).length) :
    (fixerMain r).claudeCalled = false
    ∧ (fixerMain r).commitsMade = 0
    ∧ (fixerMain r).errorComment = some escalationMsg
    ∧ (fixerMain r).result = .exited 0
    ∧ (fixerMain r).newHistory = r.history := by
  have heq := check_fix_attempt_count_eq r.history hwf
  rw [fixerMain, if_pos (by rw [heq]; exact hcount)]
  exact ⟨rfl, rfl, rfl, rfl, rfl⟩

/-- Witness for C1: a branch history holding three marker commits triggers
the escalation stop. -/
theorem fixer_escalates_at_max_attempts_witness :
    (fixerMain
      { history :=
          [⟨"a1".toList, "fix: address code review findings".toList, "br".toList⟩,
           ⟨"b2".toList, "fix: address code review findings".toList, "br".toList⟩,
           ⟨"c3".toList, "fix: address code review findings".toList, "br".toList⟩],
        prBranch := "br".toList,
        findings := ["CRITICAL: SQL injection".toList],
        claudeResp := .ok ⟨[⟨"app.py".toList, "x = 1".toList⟩], none, none⟩,
        gitExc := none, treeChanged := true, newSha := "d4".toList }).claudeCalled = false
    ∧ (fixerMain
      { history :=
          [⟨"a1".toList, "fix: address code review findings".toList, "br".toList⟩,
           ⟨"b2".toList, "fix: address code review findings".toList, "br".toList⟩,
           ⟨"c3".toList, "fix: address code review findings".toList, "br".toList⟩],
        prBranch := "br".toList,
        findings := ["CRITICAL: SQL injection".toList],
        claudeResp := .ok ⟨[⟨"app.py".toList, "x = 1".toList⟩], none, none⟩,
        gitExc := none, treeChanged := true, newSha := "d4".toList }).commitsMade = 0 := by
  have h := fixer_escalates_at_max_attempts
    { history :=
        [⟨"a1".toList, "fix: address code review findings".toList, "br".toList⟩,
         ⟨"b2".toList, "fix: address code review findings".toList, "br".toList⟩,
         ⟨"c3".toList, "fix: address code review findings".toList, "br".toList⟩],
      prBranch := "br".toList,
      findings := ["CRITICAL: SQL injection".toList],
      claudeResp := .ok ⟨[⟨"app.py".toList, "x = 1".toList⟩], none, none⟩,
      gitExc := none, treeChanged := true, newSha := "d4".toList }
    (by decide) (by decide)
  exact ⟨h.1, h.2.1⟩

lemma fixerMain_no_findings (r : FixerRun) (h : r.findings = []) :
    (fixerMain r).claudeCalled = false
    ∧ (fixerMain r).commitsMade = 0
    ∧ (fixerMain r).newHistory = r.history := by
  rw [fixerMain]
  by_cases hc : maxFixAttempts ≤ check_fix_attempt_count r.history
  · rw [if_pos hc]
    exact ⟨rfl, rfl, rfl⟩
  · rw [if_neg hc, if_pos (by rw [h]; rfl)]
    exact ⟨rfl, rfl, rfl⟩

/-- Claim C9: with an empty aggregated findings list the fixer exits without
calling the generation service and without creating a commit, leaving the
history untouched; hence invoking it twice in that state yields zero commits
(and no generation call) both times. -/
theorem fixer_empty_findings_idempotent (r : FixerRun) (h : r.findings = []) :
    (fixerMain r).claudeCalled = false
    ∧ (fixerMain r).commitsMade = 0
    ∧ (fixerMain r).newHistory = r.history
    ∧ (fixerMain { r with history := (fixerMain r).newHistory }).claudeCalled = false
    ∧ (fixerMain { r with history := (fixerMain r).newHistory }).commitsMade = 0 := by
  obtain ⟨h1, h2, h3⟩ := fixerMain_no_findings r h
  obtain ⟨h4, h5, _⟩ :=
    fixerMain_no_findings { r with history := (fixerMain r).newHistory } h
  exact ⟨h1, h2, h3, h4, h5⟩

/-- Witness for C9: a concrete run with no findings makes no commit and no
generation call, twice. -/
theorem fixer_empty_findings_idempotent_witness :
    (fixerMain
      { history := [⟨"a1".toList, "feat: x".toList, "br".toList⟩],
        prBranch := "br".toList, findings := [],
        claudeResp := .ok ⟨[⟨"app.py".toList, "x = 1".toList⟩], none, none⟩,
        gitExc := none, treeChanged := true, newSha := "d4".toList }).commitsMade = 0
    ∧ (fixerMain
      { history := [⟨"a1".toList, "feat: x".toList, "br".toList⟩],
        prBranch := "br".toList, findings := [],
        claudeResp := .ok ⟨[⟨"app.py".toList, "x = 1".toList⟩], none, none⟩,
        gitExc := none, treeChanged := true, newSha := "d4".toList }).claudeCalled = false := by
  have h := fixer_empty_findings_idempotent
    { history := [⟨"a1".toList, "feat: x".toList, "br".toList⟩],
      prBranch := "br".toList, findings := [],
      claudeResp := .ok ⟨[⟨"app.py".toList, "x = 1".toList⟩], none, none⟩,
      gitExc := none, treeChanged := true, newSha := "d4".toList } rfl
  exact ⟨h.2.1, h.1⟩

/-! ## Generation-response normalization (`call_claude` of both generators) -/

/-- The markdown fence marker. -/
def fence : PyStr := "```".toList

/-- The optional language tag following an opening fence. -/
def jsonTag : PyStr := "json".toList

/-- The fence-stripping shared by `backend_agent.call_claude` (lines 64–68)
and `frontend_agent.call_claude` (lines 60–64): when the stripped response
text starts with a fence, keep `raw.split("```")[1]` (the segment between
the first fence marker and the next one, or everything after it), drop a
leading `json` tag (4 characters), and strip whitespace again. -/
def stripFence (raw : PyStr) : PyStr :=
  if leadsWith fence raw then
    let r := (splitOnTok3 fence raw).getD 1 []
    pyStrip (if leadsWith jsonTag r then r.drop 4 else r)
  else raw

/-- First index of a character in a string, if any. -/
def firstIdxOf (c : Char) : PyStr → Option Nat
  | [] => none
  | a :: t => if a = c then some 0 else (firstIdxOf c t).map (· + 1)

/-- Models Python `s.find(c)`: first index, or `-1`. -/
def pyFindChar (s : PyStr) (c : Char) : Int :=
  match firstIdxOf c s with
  | some i => (i : Int)
  | none => -1

/-- Models Python `s.rfind(c)`: last index, or `-1`. -/
def pyRFindChar (s : PyStr) (c : Char) : Int :=
  match firstIdxOf c s.reverse with
  | some i => ((s.length - 1 - i : Nat) : Int)
  | none => -1

/-- `frontend_agent.call_claude` lines 65–69: `start = raw.find("{")`,
`end = raw.rfind("}") + 1`, and if `start != -1 and end > start` keep
`raw[start:end]`. -/
def extractBraces (raw : PyStr) : PyStr :=
  let start := pyFindChar raw '\x7b'
  let stop := pyRFindChar raw '\x7d' + 1
  if start ≠ -1 ∧ start < stop then (raw.take stop.toNat).drop start.toNat else raw

/-- `backend_agent.call_claude` (lines 61–70): the backend generator strips
whitespace and a fence, and JSON-parses that text directly — it performs no
brace extraction. -/
def backendNormalize (t : PyStr) : PyStr := stripFence (pyStrip t)

/-- `frontend_agent.call_claude` (lines 57–71): the frontend generator
additionally cuts the fence-stripped text down to the span from the first
`\x7b` to the last `\x7d` before JSON-parsing. -/
def frontendNormalize (t : PyStr) : PyStr := extractBraces (stripFence (pyStrip t))

lemma firstIdxOf_eq_some (c : Char) :
    ∀ (s : PyStr) (i : Nat), s[i]? = some c → (∀ k, k < i → s[k]? ≠ some c) →
      firstIdxOf c s = some i
  | [], i => by simp
  | a :: t, i => by
    intro hi hk
    cases i with
    | zero =>
      simp only [List.getElem?_cons_zero, Option.some.injEq] at hi
      simp [firstIdxOf, hi]
    | succ n =>
      have ha : ¬ a = c := by
        intro h
        exact hk 0 (Nat.succ_pos n) (by simp [h])
      rw [firstIdxOf, if_neg ha,
        firstIdxOf_eq_some c t n (by simpa using hi)
          (fun k hlt => by
            have := hk (k + 1) (Nat.succ_lt_succ hlt)
            simpa using this)]
      rfl

lemma pyFindChar_eq_of (s : PyStr) (c : Char) (i : Nat)
    (h : firstIdxOf c s = some i) : pyFindChar s c = (i : Int) := by
  rw [pyFindChar, h]

lemma pyRFindChar_eq_of (s : PyStr) (c : Char) (i : Nat)
    (h : firstIdxOf c s.reverse = some i) :
    pyRFindChar s c = ((s.length - 1 - i : Nat) : Int) := by
  rw [pyRFindChar, h]

/-- The implemented index dance of `extractBraces` computes exactly the span
from the first opening brace to the last closing brace, inclusive. -/
lemma extractBraces_span (s : PyStr) (i j : Nat)
    (hi : s[i]? = some '\x7b') (hfirst : ∀ k, k < i → s[k]? ≠ some '\x7b')
    (hj : s[j]? = some '\x7d')
    (hlast : ∀ k, k < s.length → j < k → s[k]? ≠ some '\x7d')
    (hij : i ≤ j) :
    extractBraces s = (s.take (j + 1)).drop i := by
  have hilen : i < s.length := (List.getElem?_eq_some.mp hi).1
  have hjlen : j < s.length := (List.getElem?_eq_some.mp hj).1
  have hfind : firstIdxOf '\x7b' s = some i := firstIdxOf_eq_some _ s i hi hfirst
  have hrlen : s.length - 1 - j < s.length := by omega
  have hrev : s.reverse[s.length - 1 - j]? = some '\x7d' := by
    rw [List.getElem?_reverse (by simpa using hrlen)]
    have : s.length - 1 - (s.length - 1 - j) = j := by omega
    rw [this]
    exact hj
  have hrevfirst : ∀ k, k < s.length - 1 - j → s.reverse[k]? ≠ some '\x7d' := by
    intro k hk
    rw [List.getElem?_reverse (by simpa using (by omega : k < s.length))]
    exact hlast (s.length - 1 - k) (by omega) (by omega)
  have hrfind : firstIdxOf '\x7d' s.reverse = some (s.length - 1 - j) :=
    firstIdxOf_eq_some _ s.reverse (s.length - 1 - j) hrev hrevfirst
  have hf : pyFindChar s '\x7b' = (i : Int) := pyFindChar_eq_of s _ i hfind
  have hr : pyRFindChar s '\x7d' = (j : Int) := by
    rw [pyRFindChar_eq_of s _ _ hrfind]
    congr 1
    omega
  simp only [extractBraces, hf, hr]
  rw [if_pos (by constructor <;> omega)]
  have h1 : ((j : Int) + 1).toNat = j + 1 := by omega
  have h2 : ((i : Int)).toNat = i := by omega
  rw [h1, h2]

/-- Claim C8 counterexample: on a response with text outside the braces and
no fence, the backend change generator's normalization returns the text
unchanged instead of the first-`\x7b`-to-last-`\x7d` span — the backend
performs no brace extraction. -/
theorem backend_no_brace_extraction_cex :
    backendNormalize ("noise \x7b1\x7d trailing".toList)
        = ("noise \x7b1\x7d trailing").toList
    ∧ backendNormalize ("noise \x7b1\x7d trailing".toList)
        ≠ extractBraces (stripFence (pyStrip ("noise \x7b1\x7d trailing".toList))) := by
  constructor
  · decide
  · decide

/-- Claim C8 (amended): both generators first strip whitespace and a single
leading fence (dropping a `json` tag); only the frontend generator then
extracts the substring between the first `\x7b` and the last `\x7d` before
JSON-parsing — the backend generator parses the fence-stripped text as is —
and that extraction indeed returns the inclusive first-`\x7b`-to-last-`\x7d`
span whenever an opening brace precedes the last closing brace. -/
theorem generator_parse_normalization (raw s : PyStr) (i j : Nat)
    (hi : s[i]? = some '\x7b') (hfirst : ∀ k, k < i → s[k]? ≠ some '\x7b')
    (hj : s[j]? = some '\x7d')
    (hlast : ∀ k, k < s.length → j < k → s[k]? ≠ some '\x7d')
    (hij : i ≤ j) :
    backendNormalize raw = stripFence (pyStrip raw)
    ∧ frontendNormalize raw = extractBraces (backendNormalize raw)
    ∧ extractBraces s = (s.take (j + 1)).drop i :=
  ⟨rfl, rfl, extractBraces_span s i j hi hfirst hj hlast hij⟩

/-- Witness for C8: a concrete fenced response whose inner text carries
noise around the JSON object. -/
theorem generator_parse_normalization_witness :
    frontendNormalize ("```json\nok \x7b\"a\": 1\x7d end\n```".toList)
        = ("\x7b\"a\": 1\x7d".toList)
    ∧ extractBraces ("ok \x7b\"a\": 1\x7d end".toList)
        = (("ok \x7b\"a\": 1\x7d end".toList).take 11).drop 3 := by
  have h := generator_parse_normalization ("```json\nok \x7b\"a\": 1\x7d end\n```".toList)
    ("ok \x7b\"a\": 1\x7d end".toList) 3 10
    (by decide) (by decide) (by decide) (by decide) (by decide)
  exact ⟨by decide, h.2.2⟩

/-! ## Generator entry points (`backend_agent.main`, `frontend_agent.main`) -/

/-- The structured change set returned by the generation service to a
generator (`files`, commit message, pull-request text). -/
structure GenResult where
  files : List FixFile
  commit_message : Option PyStr
  pr_title : Option PyStr
  pr_body : Option PyStr

/-- Environment of one generator run: the generation response (or the
`json.JSONDecodeError` its parsing raises), and whether a git command
(`CalledProcessError`) or the pull-request/platform call raises. -/
structure GenRun where
  claudeResp : Except PyStr GenResult
  gitExc : Option PyStr
  prExc : Option PyStr

/-- Observable outcome of a generator run: whether a failure comment was
posted on the issue, whether the success comment was posted, and how the
process ended. -/
structure GenOutcome where
  errorCommentPosted : Bool
  successCommentPosted : Bool
  result : PyRunResult
deriving DecidableEq

/-- `backend_agent.py`, `main` (lines 188–226): the whole pipeline runs in a
try-block whose three handlers (JSONDecodeError, CalledProcessError, bare
Exception) each post an error comment on the issue and `sys.exit(1)`. -/
def backendMain (r : GenRun) : GenOutcome :=
  match r.claudeResp with
  | .error _ => ⟨true, false, .exited 1⟩
  | .ok _ =>
    match r.gitExc with
    | some _ => ⟨true, false, .exited 1⟩
    | none =>
      match r.prExc with
      | some _ => ⟨true, false, .exited 1⟩
      | none => ⟨false, true, .exited 0⟩

/-- `frontend_agent.py`, `main` (lines 131–195): no try-block at all — every
exception of the pipeline propagates uncaught (traceback, nonzero interpreter
exit) and no comment is posted; the explicit no-files abort (line 147) exits
1 with only a log line. -/
def frontendMain (r : GenRun) : GenOutcome :=
  match r.claudeResp with
  | .error e => ⟨false, false, .raised e⟩
  | .ok res =>
    if res.files.isEmpty then ⟨false, false, .exited 1⟩
    else
      match r.gitExc with
      | some e => ⟨false, false, .raised e⟩
      | none =>
        match r.prExc with
        | some e => ⟨false, false, .raised e⟩
        | none => ⟨false, true, .exited 0⟩

/-- Claim C5 counterexample: when the frontend generator's generation call
raises (here a JSON parse failure), the exception escapes uncaught and no
comment is posted on the issue — the failure is visible only in the logs,
contradicting the claim for the frontend entry point. -/
theorem frontend_exception_no_comment_cex :
    (frontendMain ⟨.error ("JSONDecodeError: Expecting value".toList),
        none, none⟩).errorCommentPosted = false
    ∧ (frontendMain ⟨.error ("JSONDecodeError: Expecting value".toList),
        none, none⟩).result
      = .raised ("JSONDecodeError: Expecting value".toList) := by
  constructor
  · rfl
  · rfl

/-- Claim C5 (amended): the backend change generator's and the fixer's entry
points wrap their pipelines in an outer handler that posts an error comment
and exits 1 on any pipeline exception (shown for a malformed generation
response and for a git failure); the frontend generator's entry point has no
such handler — its exceptions propagate uncaught and no comment is posted. -/
theorem outer_handler_backend_fixer_not_frontend
    (rb rg rf : GenRun) (rx : FixerRun)
    (eb : PyStr) (hb : rb.claudeResp = .error eb)
    (gres : GenResult) (eg : PyStr)
    (hg1 : rg.claudeResp = .ok gres) (hg2 : rg.gitExc = some eg)
    (ex : PyStr) (hx : rx.claudeResp = .error ex)
    (hxc : check_fix_attempt_count rx.history < 3)
    (hxf : rx.findings ≠ [])
    (ef : PyStr) (hf : rf.claudeResp = .error ef) :
    ((backendMain rb).errorCommentPosted = true ∧ (backendMain rb).result = .exited 1)
    ∧ ((backendMain rg).errorCommentPosted = true ∧ (backendMain rg).result = .exited 1)
    ∧ ((fixerMain rx).errorComment
          = some ("Failed to parse the generation response as JSON: ".toList ++ ex)
        ∧ (fixerMain rx).result = .exited 1)
    ∧ ((frontendMain rf).errorCommentPosted = false
        ∧ (frontendMain rf).result = .raised ef) := by
  refine ⟨?_, ?_, ?_, ?_⟩
  · rw [backendMain, hb]
    exact ⟨rfl, rfl⟩
  · rw [backendMain, hg1, hg2]
    exact ⟨rfl, rfl⟩
  · rw [fixerMain, if_neg (by simp only [maxFixAttempts]; omega),
      if_neg (by simpa using hxf), hx]
    exact ⟨rfl, rfl⟩
  · rw [frontendMain, hf]
    exact ⟨rfl, rfl⟩

/-- Witness for C5 (amended) at concrete runs: a parse failure in each
backend component is caught and commented; a git failure in the backend
generator likewise; the same parse failure in the frontend generator escapes
with no comment. -/
theorem outer_handler_backend_fixer_not_frontend_witness :
    ((backendMain ⟨.error ("bad json".toList), none, none⟩).errorCommentPosted = true
      ∧ (backendMain ⟨.error ("bad json".toList), none, none⟩).result = .exited 1)
    ∧ ((backendMain ⟨.ok ⟨[], none, none, none⟩, some ("push failed".toList),
          none⟩).errorCommentPosted = true
      ∧ (backendMain ⟨.ok ⟨[], none, none, none⟩, some ("push failed".toList),
          none⟩).result = .exited 1)
    ∧ ((fixerMain
        { history := [], prBranch := "br".toList,
          findings := ["WARNING: naming".toList],
          claudeResp := .error ("bad json".toList), gitExc := none,
          treeChanged := false, newSha := "s1".toList }).errorComment
          = some ("Failed to parse the generation response as JSON: ".toList
              ++ "bad json".toList)
      ∧ (fixerMain
        { history := [], prBranch := "br".toList,
          findings := ["WARNING: naming".toList],
          claudeResp := .error ("bad json".toList), gitExc := none,
          treeChanged := false, newSha := "s1".toList }).result = .exited 1)
    ∧ ((frontendMain ⟨.error ("bad json".toList), none,
          none⟩).errorCommentPosted = false
      ∧ (frontendMain ⟨.error ("bad json".toList), none, none⟩).result
          = .raised ("bad json".toList)) :=
  outer_handler_backend_fixer_not_frontend
    ⟨.error ("bad json".toList), none, none⟩
    ⟨.ok ⟨[], none, none, none⟩, some ("push failed".toList), none⟩
    ⟨.error ("bad json".toList), none, none⟩
    { history := [], prBranch := "br".toList,
      findings := ["WARNING: naming".toList],
      claudeResp := .error ("bad json".toList), gitExc := none,
      treeChanged := false, newSha := "s1".toList }
    ("bad json".toList) rfl
    ⟨[], none, none, none⟩ ("push failed".toList) rfl rfl
    ("bad json".toList) rfl (by decide) (by decide)
    ("bad json".toList) rfl
